import Mathlib

/-!
# Verification of the xenosync multi-agent orchestration core

Shallow embedding, in Lean 4, of the parts of the `xenosync` repository that
the specification's testable claims are about:

* `project_coordination.py` — the merge algorithm (`merge_agent_projects`,
  `_merge_with_files`), project statuses, the conflict map and the
  `MERGE_SUMMARY.md` generation;
* `agent_manager.py` — `check_agent_working`, `calculate_completion_confidence`
  (the four-signal completion detector), `handle_error_recovery`, and the
  semantic-verification caching on the `Agent` record;
* `project_strategies.py` — `_divide_tasks` (round-robin distribution) and
  `_run_finalization_phase` (the finalization monitor loop).

Filesystem state is modelled with association lists keyed by relative path,
Python `float` quantities with `ℚ`, wall-clock time by explicit numeric
parameters, and the results of I/O reads (captured terminal output, regex
matcher verdicts, file-activity scans, verification responses) as explicit
inputs to the embedded functions.
-/

namespace Xenosync

/-! ## Model of `project_coordination.py` -/

/-- `ProjectStatus` enum from `project_coordination.py`. -/
inductive ProjectStatus where
  | initialized
  | inProgress
  | completed
  | merged
  | failed
deriving DecidableEq, Repr

/-- An `AgentProject` as far as the merge algorithm reads it: the agent id,
the lifecycle status, and the files found under the project root by
`rglob` (in traversal order), as pairs of relative path and content.
VCS metadata (`.git`) is excluded by the source before this point. -/
structure AgentProject where
  agent_id : ℕ
  status : ProjectStatus
  files : List (String × String)
deriving DecidableEq, Repr

/-- The `final-project` tree (and any file tree): an association list from
relative path to file content. Earlier entries shadow later ones. -/
abbrev FileTree := List (String × String)

/-- The `file_sources` map of `_merge_with_files`: path → list of agent ids
that attempted to write that path. -/
abbrev FileSources := List (String × List ℕ)

/-- Association-list lookup (first match wins), mirroring a Python dict /
filesystem lookup. -/
def lookupA {α : Type} : List (String × α) → String → Option α
  | [], _ => none
  | (k, v) :: rest, q => if k = q then some v else lookupA rest q

/-- Association-list insert-or-replace, mirroring a Python dict assignment /
`write_text` / `shutil.copy2` to a destination path. -/
def setA {α : Type} : List (String × α) → String → α → List (String × α)
  | [], q, v => [(q, v)]
  | (k, w) :: rest, q, v =>
      if k = q then (q, v) :: rest else (k, w) :: setA rest q v

/-- The `'overwrite'` conflict-resolution policy string. -/
def overwriteStr : String := "overwrite"

/-- The `'skip'` conflict-resolution policy string (the default of
`self.config.get('conflict_resolution', 'skip')`). -/
def skipStr : String := "skip"

/-- The file name `MERGE_SUMMARY.md` written into `final-project`. -/
def mergeSummaryName : String := "MERGE_SUMMARY.md"

/-- Accumulator threaded through `_merge_with_files`: the `final-project`
tree, the `file_sources` map, the paths for which a conflict record was
appended to `results['conflicts']` (in append order), the running
`files_copied` counter of the current project, the `merged_projects` list
and the `total_files` counter.

Python appends to `results['conflicts']` a dict holding a *reference* to
the `file_sources[path]` list; later appends for the same path mutate the
already-stored record. We therefore record only the conflicted paths here
and materialise each record from the final `file_sources` map afterwards,
which is exactly what the aliasing semantics yields. -/
structure MergeAcc where
  final : FileTree
  sources : FileSources
  conflict_paths : List String
  copied : ℕ
  merged : List ℕ
  total : ℕ
deriving Repr

/-- One iteration of the inner `for file_path in project.project_path.rglob('*')`
loop of `_merge_with_files` (lines 359–385), for a single file `(rel, content)`
of the project of agent `aid`, under conflict policy `policy`. -/
def copyFile (policy : String) (aid : ℕ) (acc : MergeAcc) (f : String × String) :
    MergeAcc :=
  match lookupA acc.final f.1 with
  | some _ =>
      -- dest_path.exists(): record the source agent, then resolve by policy
      let prev := (lookupA acc.sources f.1).getD []
      let sources' := setA acc.sources f.1 (prev ++ [aid])
      if policy = overwriteStr then
        { acc with
            final := setA acc.final f.1 f.2
            sources := sources'
            copied := acc.copied + 1 }
      else
        { acc with
            sources := sources'
            conflict_paths := acc.conflict_paths ++ [f.1] }
  | none =>
      -- no conflict: copy the file and record the source agent
      { acc with
          final := setA acc.final f.1 f.2
          sources := setA acc.sources f.1 [aid]
          copied := acc.copied + 1 }

/-- One iteration of the outer `for project in projects` loop of
`_merge_with_files` (lines 355–393): copy all files of one project, then
append the agent id to `merged_projects` and add the per-project
`files_copied` to `total_files`.  The model has no filesystem exceptions,
so the `failed_projects` branch is unreachable. -/
def mergeOneProject (policy : String) (st : MergeAcc) (proj : AgentProject) :
    MergeAcc :=
  let a := proj.files.foldl (copyFile policy proj.agent_id) { st with copied := 0 }
  { a with
      merged := st.merged ++ [proj.agent_id]
      total := st.total + a.copied
      copied := 0 }

/-- The separator `", "` of Python list `repr`. -/
def commaSep : String := ", "

/-- Python `repr` of a list of ints, e.g. `[0, 1]`, as interpolated by
`f"- {conflict['file']}: agents {conflict['agents']}\n"`. -/
def natListRepr (l : List ℕ) : String :=
  "[" ++ String.intercalate commaSep (l.map toString) ++ "]"

/-- The (empty) conflicts section when no conflict was recorded. -/
def noConflictSection : String := ""

/-- One conflict line of the merge summary:
`f"- {conflict['file']}: agents {conflict['agents']}\n"`. -/
def conflictLine (c : String × List ℕ) : String :=
  "- " ++ c.1 ++ ": agents " ++ natListRepr c.2 ++ "\n"

/-- The `for conflict in results['conflicts']` accumulation loop of the
summary (lines 405–406). -/
def conflictLines : List (String × List ℕ) → String
  | [] => ""
  | c :: rest => conflictLine c ++ conflictLines rest

/-- The `MERGE_SUMMARY.md` content built in `_merge_with_files`
(lines 397–406). -/
def mergeSummaryContent (sessionId : String) (mergedCount : ℕ) (totalFiles : ℕ)
    (conflicts : List (String × List ℕ)) : String :=
  "# Merge Summary\n\n"
    ++ "Session: " ++ sessionId ++ "\n"
    ++ "Merged Projects: " ++ toString mergedCount ++ "\n"
    ++ "Total Files: " ++ toString totalFiles ++ "\n"
    ++ "Conflicts: " ++ toString conflicts.length ++ "\n\n"
    ++ (if conflicts = [] then noConflictSection
        else "## Conflicts\n\n" ++ conflictLines conflicts)

/-- The result dictionary of `merge_agent_projects` / `_merge_with_files`. -/
structure MergeResults where
  merged_projects : List ℕ
  failed_projects : List ℕ
  total_files : ℕ
  conflicts : List (String × List ℕ)
deriving DecidableEq, Repr

/-- The empty result dictionary built at the top of `merge_agent_projects`. -/
def emptyResults : MergeResults :=
  { merged_projects := [], failed_projects := [], total_files := 0, conflicts := [] }

/-- Outcome of `_merge_with_files`: the results dictionary, the summary text,
and the `final-project` tree after all copies and the summary write. -/
structure MergeOutcome where
  results : MergeResults
  summary : String
  final : FileTree
deriving Repr

/-- `_merge_with_files(projects, final_dir)` (lines 342–420): fold all
projects over the file-copy loop, materialise the conflict records from the
final `file_sources` map (Python aliasing, see `MergeAcc`), then write
`MERGE_SUMMARY.md` into the final directory. The closing `git add/commit`
is outside the model. -/
def mergeWithFiles (policy sessionId : String) (projects : List AgentProject)
    (final0 : FileTree) : MergeOutcome :=
  let st := projects.foldl (mergeOneProject policy)
    { final := final0, sources := [], conflict_paths := [],
      copied := 0, merged := [], total := 0 }
  let conflicts := st.conflict_paths.map fun p => (p, (lookupA st.sources p).getD [])
  let summary := mergeSummaryContent sessionId st.merged.length st.total conflicts
  { results :=
      { merged_projects := st.merged, failed_projects := [],
        total_files := st.total, conflicts := conflicts }
    summary := summary
    final := setA st.final mergeSummaryName summary }

/-- The coordinator state that `merge_agent_projects` reads and writes:
the tracked agent projects (in `agent_projects` dict insertion order,
i.e. agent-creation order) and the `final-project` tree. -/
structure CoordState where
  projects : List AgentProject
  final : FileTree
deriving Repr

/-- `merge_agent_projects()` (lines 304–340) with the default `'combine'`
merge strategy, hence `_merge_with_files`: select the `COMPLETED` projects;
if there are none, return the empty results without touching anything;
otherwise merge and transition every successfully merged project to
`MERGED`. -/
def merge_agent_projects (policy sessionId : String) (s : CoordState) :
    MergeResults × CoordState :=
  let completedProjects := s.projects.filter fun p => p.status = ProjectStatus.completed
  if completedProjects = [] then
    (emptyResults, s)
  else
    let out := mergeWithFiles policy sessionId completedProjects s.final
    let projects' := s.projects.map fun p =>
      if p.status = ProjectStatus.completed ∧ p.agent_id ∈ out.results.merged_projects
      then { p with status := ProjectStatus.merged }
      else p
    (out.results, { projects := projects', final := out.final })

/-! ## Model of `agent_manager.py` -/

/-- `AgentStatus` enum from `agent_manager.py`. -/
inductive AgentStatus where
  | starting
  | working
  | completed
  | error
  | stopped
deriving DecidableEq, Repr

/-- The empty string (used for Python truthiness checks on strings). -/
def emptyStr : String := ""

/-- The newline separator of `output.strip().split('\n')`. -/
def lineSep : String := "\n"

/-- The last `n` elements of a list, Python `xs[-n:]`. -/
def lastN {α : Type} (n : ℕ) (l : List α) : List α :=
  l.drop (l.length - n)

/-- `check_agent_working` lines 355–357: strip the captured output, split into
lines, strip each line, keep the non-empty ones, take the last 10. -/
def recentLines (output : String) : List String :=
  lastN 10 (((output.trim.splitOn lineSep).map String.trim).filter
    fun l => decide (l ≠ emptyStr))

/-- The grace-period fallback of `check_agent_working` (lines 346–353 and
371–377).  Python evaluates `if agent.time_since_message():` — a *truthiness*
test, so a `None` (no message ever sent) and an exactly-zero elapsed time both
skip the grace check — and then compares the elapsed seconds to
`config.get('message_grace_period', 30)`. -/
def graceFallback (timeSinceMessage : Option ℚ) (gracePeriod : ℚ) : Bool :=
  match timeSinceMessage with
  | none => false
  | some t => if t = 0 then false else decide (t < gracePeriod)

/-- `check_agent_working(agent_id)` (lines 337–380) for an agent that exists,
as a function of the captured output (`none` when `get_agent_output` returned
`None`; Python treats an empty string the same way), the elapsed seconds since
the last message (`none` when no message was ever sent), and the configured
grace period.  The two regex-pattern families `_check_completion_patterns`
and `_check_working_patterns` are abstracted as Boolean verdict functions on
the recent lines (the completion list is config-supplied; the working list is
fixed regexes; neither engine is re-implemented here). -/
def check_agent_working
    (hasCompletionPatterns hasWorkingPatterns : List String → Bool)
    (output : Option String) (timeSinceMessage : Option ℚ)
    (gracePeriod : ℚ) : Bool :=
  match output with
  | none => graceFallback timeSinceMessage gracePeriod
  | some o =>
      if o = emptyStr then
        -- Python `if not output:` is a truthiness test: "" falls back too
        graceFallback timeSinceMessage gracePeriod
      else
        let recent := recentLines o
        if hasCompletionPatterns recent then false
        else if hasWorkingPatterns recent then true
        else graceFallback timeSinceMessage gracePeriod

/-- Inputs of one `handle_error_recovery(agent_id)` call (lines 843–879):
the agent's `recovery_attempts` counter *before* the call, and the outcomes
of the two awaited sub-calls — whether `send_to_agent` succeeded and whether
`check_agent_working` reported the agent working 5 s after the recovery
message. -/
structure RecoveryInput where
  recovery_attempts : ℕ
  sendSuccess : Bool
  workingAfter : Bool
deriving DecidableEq, Repr

/-- Observable outcome of one `handle_error_recovery` call: the updated
counter, the status and error string written to the agent by
`handle_error_recovery` itself at lines 856–858 and 875–876 (if any; the
nested `send_to_agent` call additionally stamps `WORKING` on a successful
send, which is outside this record), the backoff sleep performed (if any),
whether the recovery message was sent, and the returned Boolean. -/
structure RecoveryOutcome where
  attempts : ℕ
  statusSet : Option AgentStatus
  errorSet : Option String
  backoffSleep : Option ℕ
  messageSent : Bool
  result : Bool
deriving DecidableEq, Repr

/-- The `wait_times = [5, 10, 20, 40]` list of `handle_error_recovery`. -/
def waitTimes : List ℕ := [5, 10, 20, 40]

/-- The error string `f"Failed to recover after {agent.recovery_attempts} attempts"`. -/
def recoverFailMsg (n : ℕ) : String :=
  "Failed to recover after " ++ toString n ++ " attempts"

/-- `handle_error_recovery(agent_id)` (lines 843–879) for an agent that
exists.  The counter is incremented first; if it then exceeds 3 the agent is
marked `ERROR` with an error string and the function returns `False` without
sleeping or sending; otherwise it sleeps
`wait_times[min(recovery_attempts - 1, 3)]` seconds, sends the fixed recovery
message, waits 5 s, and on a positive `check_agent_working` resets the
counter and sets status `WORKING`. -/
def handle_error_recovery (inp : RecoveryInput) : RecoveryOutcome :=
  let attempts := inp.recovery_attempts + 1
  if 3 < attempts then
    { attempts := attempts
      statusSet := some AgentStatus.error
      errorSet := some (recoverFailMsg attempts)
      backoffSleep := none
      messageSent := false
      result := false }
  else
    let wait := waitTimes.getD (min (attempts - 1) (waitTimes.length - 1)) 0
    if inp.sendSuccess then
      if inp.workingAfter then
        { attempts := 0
          statusSet := some AgentStatus.working
          errorSet := none
          backoffSleep := some wait
          messageSent := true
          result := true }
      else
        { attempts := attempts
          statusSet := none
          errorSet := none
          backoffSleep := some wait
          messageSent := true
          result := false }
    else
      { attempts := attempts
        statusSet := none
        errorSet := none
        backoffSleep := some wait
        messageSent := true
        result := false }

/-! ## Model of the completion detector (`calculate_completion_confidence`) -/

/-- The two enhanced-completion-detection fields of the `Agent` dataclass
(lines 85–86): `last_verification_time: Optional[datetime] = None` and
`last_verification_score: float = 0.5`.  Time is modelled as absolute
seconds. -/
structure VerificationState where
  last_verification_time : Option ℚ
  last_verification_score : ℚ
deriving DecidableEq, Repr

/-- The `Agent` dataclass defaults for those two fields. -/
def initialVerificationState : VerificationState :=
  { last_verification_time := none, last_verification_score := 1/2 }

/-- Result of the awaited `verify_agent_completion(agent_id)` call, as read by
`calculate_completion_confidence` (lines 508–524): whether the verification
message was actually sent, and the parsed confidence score (the source clamps
it to `[0,1]` in `_parse_completion_response`). -/
structure VerificationOutcome where
  verification_sent : Bool
  confidence_score : ℚ
deriving DecidableEq, Repr

/-- Signal 3 of `calculate_completion_confidence` (lines 489–536): the
semantic-verification score together with the updated per-agent verification
fields.  Faithful to the source: on a fresh verification the code stores
`agent.last_verification_time = current_time` but never assigns
`agent.last_verification_score`; the not-due branch reads
`getattr(agent, 'last_verification_score', 0.5)`. -/
def semanticVerificationSignal (enabled : Bool) (interval : ℚ)
    (vstate : VerificationState) (now : ℚ) (oracle : VerificationOutcome) :
    ℚ × VerificationState :=
  if enabled then
    let shouldVerify :=
      match vstate.last_verification_time with
      | none => true
      | some t => decide (interval < now - t)
    if shouldVerify then
      if oracle.verification_sent then
        (oracle.confidence_score, { vstate with last_verification_time := some now })
      else
        (1/2, vstate)
    else
      (vstate.last_verification_score, vstate)
  else
    (1/2, vstate)

/-- Signal 1: `pattern_score = 0.0 if is_working else 1.0` (line 460). -/
def patternScore (is_working : Bool) : ℚ :=
  if is_working then 0 else 1

/-- Signal 2 (lines 470–479): start from `0.0 if has_recent_activity else 1.0`,
then, when `minutes_since_activity` is finite (`none` models `float('inf')`),
replace it by `min(1.0, minutes_since / file_activity_timeout)`. -/
def fileScore (fileActivityTimeout : ℚ) (has_recent_activity : Bool)
    (minutes_since_activity : Option ℚ) : ℚ :=
  match minutes_since_activity with
  | none => if has_recent_activity then 0 else 1
  | some m => min 1 (m / fileActivityTimeout)

/-- Signal 4 (lines 539–549): neutral `0.5` without a current task; otherwise,
once the task duration `d` (minutes) exceeds the minimum duration,
`0.5 + min(1.0, (d - minimum)/minimum) * 0.5`. -/
def timeScore (minimumDurationMin : ℚ) (taskElapsedMin : Option ℚ) : ℚ :=
  match taskElapsedMin with
  | none => 1/2
  | some d =>
      if minimumDurationMin < d then
        1/2 + min 1 ((d - minimumDurationMin) / minimumDurationMin) * (1/2)
      else 1/2

/-- The configuration values read by `calculate_completion_confidence`
(weights default to 0.25 / 0.25 / 0.35 / 0.15, the file-activity timeout to
10 minutes, the verification interval to 300 s, the minimum task duration to
300 s = 5 minutes, the threshold to 0.7). -/
structure DetectorConfig where
  weight_patterns : ℚ
  weight_file_activity : ℚ
  weight_verification : ℚ
  weight_time : ℚ
  file_activity_timeout : ℚ
  verification_enabled : Bool
  verification_interval : ℚ
  task_minimum_duration_min : ℚ
  threshold : ℚ
deriving Repr

/-- The defaults of the configuration keys used by the detector. -/
def defaultDetectorConfig : DetectorConfig :=
  { weight_patterns := 1/4
    weight_file_activity := 1/4
    weight_verification := 7/20
    weight_time := 3/20
    file_activity_timeout := 10
    verification_enabled := true
    verification_interval := 300
    task_minimum_duration_min := 5
    threshold := 7/10 }

/-- The I/O observations consumed by one `calculate_completion_confidence`
call: the `check_agent_working` verdict, the `check_file_activity` scan
result, the agent's verification fields with the current wall-clock time and
the verification oracle, and the elapsed task time (in minutes, `none` when
`current_task_start_time` is unset). -/
structure DetectorInput where
  is_working : Bool
  has_recent_activity : Bool
  minutes_since_activity : Option ℚ
  vstate : VerificationState
  now : ℚ
  verification_oracle : VerificationOutcome
  task_elapsed_min : Option ℚ
deriving Repr

/-- The parts of the dictionary returned by `calculate_completion_confidence`
that the claims are about: the weighted overall confidence, the
`completion_likely` verdict, and the four individual signal scores. -/
structure ConfidenceResult where
  overall_confidence : ℚ
  completion_likely : Bool
  pattern_score : ℚ
  file_activity_score : ℚ
  verification_score : ℚ
  time_score : ℚ
deriving Repr

/-- `calculate_completion_confidence(agent_id)` (lines 426–592) for an agent
that exists and with no exception raised: compute the four signal scores,
form the weighted sum (lines 558–563), and compare it with the configured
threshold (`completion_likely = overall_confidence >= confidence_threshold`,
line 567).  Also returns the agent's updated verification fields. -/
def calculate_completion_confidence (cfg : DetectorConfig) (inp : DetectorInput) :
    ConfidenceResult × VerificationState :=
  let ps := patternScore inp.is_working
  let fs := fileScore cfg.file_activity_timeout inp.has_recent_activity
    inp.minutes_since_activity
  let v := semanticVerificationSignal cfg.verification_enabled
    cfg.verification_interval inp.vstate inp.now inp.verification_oracle
  let ts := timeScore cfg.task_minimum_duration_min inp.task_elapsed_min
  let overall := ps * cfg.weight_patterns + fs * cfg.weight_file_activity
    + v.1 * cfg.weight_verification + ts * cfg.weight_time
  ({ overall_confidence := overall
     completion_likely := decide (cfg.threshold ≤ overall)
     pattern_score := ps
     file_activity_score := fs
     verification_score := v.1
     time_score := ts }, v.2)

/-! ## Model of `project_strategies.py` -/

/-- Pointwise update of a `ℕ`-indexed map, modelling assignment to one key of
the Python `assignments` dict. -/
def updateFn {α : Type} (m : ℕ → List α) (k : ℕ) (v : List α) : ℕ → List α :=
  fun i => if i = k then v else m i

/-- One iteration of the `for idx, step in enumerate(steps)` loop of
`_divide_tasks` (lines 163–165): `assignments[idx % num_agents].append(step)`. -/
def divideStep {α : Type} (numAgents : ℕ) (m : ℕ → List α) (pr : ℕ × α) :
    ℕ → List α :=
  updateFn m (pr.1 % numAgents) (m (pr.1 % numAgents) ++ [pr.2])

/-- `_divide_tasks(steps, num_agents)` (lines 158–167).  The Python dict
`{i: [] for i in range(num_agents)}` is modelled as a total map on `ℕ` that
is `[]` outside `[0, num_agents)`; the claims only read keys below
`num_agents`. -/
def _divide_tasks {α : Type} (steps : List α) (numAgents : ℕ) : ℕ → List α :=
  steps.enum.foldl (divideStep numAgents) fun _ => []

/-- The Python string `'completed'` compared against in
`_run_finalization_phase` line 587. -/
def completedStr : String := "completed"

/-- The Python string `'error'` compared against in line 590. -/
def errorStr : String := "error"

/-- Python `==` between an `AgentStatus` member and a `str`.  `AgentStatus`
is a plain `enum.Enum` (no `str` mixin, no `__eq__` override), so comparing a
member with any string uses identity-based default equality and is always
`False` — regardless of the member or the string. -/
def enumEqStr (_ : AgentStatus) (_ : String) : Bool := false

/-- The monitoring loop of `_run_finalization_phase` (lines 574–604),
indexed by the remaining number of iterations and the current check index.
Each iteration sleeps 15 s, re-reads the agent (`none` models
`get_agent_by_id` returning `None`: "finalization agent disappeared",
return `False`), then tests `agent.status == 'completed'` (return `True`)
and `agent.status == 'error'` (return `False`) — both via `enumEqStr`.
Exhausted fuel is the timeout path: the finalization agent is stopped via
`stop_finalization_agent` and the phase returns `False`. -/
def finalizationLoop (statusAtCheck : ℕ → Option AgentStatus) :
    ℕ → ℕ → Bool
  | 0, _ => false
  | fuel + 1, k =>
      match statusAtCheck k with
      | none => false
      | some st =>
          if enumEqStr st completedStr then true
          else if enumEqStr st errorStr then false
          else finalizationLoop statusAtCheck fuel (k + 1)

/-- The monitoring part of `_run_finalization_phase` (lines 573–604), for a
successfully spawned finalization agent: with a 15-s check interval, the
`while (now - start) < finalization_timeout` loop performs exactly
`⌈timeout / 15⌉` iterations, observing the agent's status at each check. -/
def _run_finalization_phase (statusAtCheck : ℕ → Option AgentStatus)
    (finalizationTimeout : ℕ) : Bool :=
  finalizationLoop statusAtCheck ((finalizationTimeout + 14) / 15) 0

/-! ## Association-list lemmas -/

theorem lookupA_setA_self {α : Type} (m : List (String × α)) (k : String) (v : α) :
    lookupA (setA m k v) k = some v := by
  induction m with
  | nil => simp [setA, lookupA]
  | cons hd tl ih =>
      by_cases h : hd.1 = k <;> simp [setA, lookupA, h, ih]

theorem lookupA_setA_ne {α : Type} (m : List (String × α)) (k q : String) (v : α)
    (h : q ≠ k) : lookupA (setA m k v) q = lookupA m q := by
  induction m with
  | nil => simp [setA, lookupA, Ne.symm h]
  | cons hd tl ih =>
      by_cases hk : hd.1 = k
      · simp [setA, lookupA, hk, Ne.symm h]
      · by_cases hq : hd.1 = q <;> simp [setA, lookupA, hk, hq, ih, h]

/-! ## C10: merge with no completed project is entirely skipped -/

/-- Shared helper: when no tracked project is `COMPLETED`,
`merge_agent_projects` takes the early-return branch (lines 324–326). -/
theorem merge_of_no_completed (policy sid : String) (s : CoordState)
    (h : ∀ p ∈ s.projects, p.status ≠ ProjectStatus.completed) :
    merge_agent_projects policy sid s = (emptyResults, s) := by
  have hf : s.projects.filter (fun p => decide (p.status = ProjectStatus.completed)) = [] := by
    simp only [List.filter_eq_nil_iff, decide_eq_true_eq]
    exact h
  simp [merge_agent_projects, hf]

/-- C10: if no agent project has status `COMPLETED`, `merge_agent_projects`
returns the empty result dictionary (no merged projects, no failed projects,
zero files, no conflicts) and leaves the coordinator state — the tracked
projects with their statuses and the whole `final-project` tree, in
particular without any `MERGE_SUMMARY.md` write — unchanged. -/
theorem merge_skips_when_no_completed (policy sid : String) (s : CoordState)
    (h : ∀ p ∈ s.projects, p.status ≠ ProjectStatus.completed) :
    merge_agent_projects policy sid s = (emptyResults, s) :=
  merge_of_no_completed policy sid s h

/-- A session-id string for concrete examples. -/
def sessStr : String := "session-1"

/-- `README.md`, the file that session initialisation places in
`final-project`. -/
def readmeName : String := "README.md"

/-- A concrete file content for examples. -/
def readmeContent : String := "# project"

/-- A concrete coordinator state with one in-progress and one failed
project (no completed project) and a non-empty `final-project`. -/
def noCompletedState : CoordState :=
  { projects :=
      [{ agent_id := 0, status := ProjectStatus.inProgress, files := [] },
       { agent_id := 1, status := ProjectStatus.failed, files := [] }]
    final := [(readmeName, readmeContent)] }

/-- Witness for C10 at the concrete state `noCompletedState`. -/
theorem merge_skips_when_no_completed_witness :
    merge_agent_projects skipStr sessStr noCompletedState
      = (emptyResults, noCompletedState) :=
  merge_skips_when_no_completed skipStr sessStr noCompletedState (by decide)

/-! ## C4: error-recovery backoff schedule -/

/-- Counterexample to C4 as stated: the claim says recovery attempt 4 sleeps
40 seconds.  On the fourth call (`recovery_attempts` was 3, incremented to 4)
the `recovery_attempts > 3` guard at line 854 fires *before* any sleep, so no
backoff sleep happens, no recovery message is sent, and the agent is marked
`ERROR` instead; the 40-second entry of `wait_times` is unreachable. -/
theorem recovery_attempt4_counterexample :
    (handle_error_recovery
        { recovery_attempts := 3, sendSuccess := true, workingAfter := true }).backoffSleep
        ≠ some 40
    ∧ (handle_error_recovery
        { recovery_attempts := 3, sendSuccess := true, workingAfter := true }).backoffSleep
        = none
    ∧ (handle_error_recovery
        { recovery_attempts := 3, sendSuccess := true, workingAfter := true }).statusSet
        = some AgentStatus.error := by
  decide

/-- C4 (amended): `handle_error_recovery` sleeps 5, 10 and 20 seconds on
recovery attempts 1 through 3 respectively; the 40-second backoff entry is
unreachable, because on the fourth and any later attempt the incremented
counter exceeds 3 and the agent is immediately marked `Error` with an error
string — no sleep is performed and no recovery message is sent, so recovery
is never again attempted for that agent.  If, on attempts 1–3, the recovery
message is sent successfully and the agent then matches working patterns, the
attempt counter is reset to 0, the status becomes `Working` and the call
reports success. -/
theorem handle_error_recovery_spec (inp : RecoveryInput) :
    (inp.recovery_attempts = 0 →
      (handle_error_recovery inp).backoffSleep = some 5)
    ∧ (inp.recovery_attempts = 1 →
      (handle_error_recovery inp).backoffSleep = some 10)
    ∧ (inp.recovery_attempts = 2 →
      (handle_error_recovery inp).backoffSleep = some 20)
    ∧ (3 ≤ inp.recovery_attempts →
      (handle_error_recovery inp).backoffSleep = none
      ∧ (handle_error_recovery inp).messageSent = false
      ∧ (handle_error_recovery inp).statusSet = some AgentStatus.error
      ∧ (handle_error_recovery inp).errorSet
          = some (recoverFailMsg (inp.recovery_attempts + 1))
      ∧ (handle_error_recovery inp).result = false)
    ∧ (inp.recovery_attempts < 3 → inp.sendSuccess = true → inp.workingAfter = true →
      (handle_error_recovery inp).attempts = 0
      ∧ (handle_error_recovery inp).statusSet = some AgentStatus.working
      ∧ (handle_error_recovery inp).result = true) := by
  refine ⟨?_, ?_, ?_, ?_, ?_⟩
  · intro h0
    cases hs : inp.sendSuccess <;> cases hw : inp.workingAfter <;>
      simp [handle_error_recovery, h0, hs, hw, waitTimes, List.getD]
  · intro h1
    cases hs : inp.sendSuccess <;> cases hw : inp.workingAfter <;>
      simp [handle_error_recovery, h1, hs, hw, waitTimes, List.getD]
  · intro h2
    cases hs : inp.sendSuccess <;> cases hw : inp.workingAfter <;>
      simp [handle_error_recovery, h2, hs, hw, waitTimes, List.getD]
  · intro h3
    have hgt : 3 < inp.recovery_attempts + 1 := by omega
    simp [handle_error_recovery, hgt]
  · intro hlt hs hw
    have hgt : ¬ 3 < inp.recovery_attempts + 1 := by omega
    simp [handle_error_recovery, hgt, hs, hw]

/-- Witness for C4's amended theorem at attempt 1 with a successful
recovery: 5-second backoff, counter reset, status `Working`. -/
theorem handle_error_recovery_spec_witness :
    (handle_error_recovery
      { recovery_attempts := 0, sendSuccess := true, workingAfter := true }).backoffSleep
      = some 5
    ∧ (handle_error_recovery
      { recovery_attempts := 0, sendSuccess := true, workingAfter := true }).attempts = 0
    ∧ (handle_error_recovery
      { recovery_attempts := 0, sendSuccess := true, workingAfter := true }).result
      = true := by
  have h := handle_error_recovery_spec
    { recovery_attempts := 0, sendSuccess := true, workingAfter := true }
  refine ⟨h.1 rfl, ?_, ?_⟩
  · exact (h.2.2.2.2 (by decide) rfl rfl).1
  · exact (h.2.2.2.2 (by decide) rfl rfl).2.2

/-! ## C8: the finalization monitor can never observe completion -/

/-- The finalization monitor loop never returns `True`: both status tests
compare an `AgentStatus` enum member against a `str` with Python `==`, which
is always `False`, so each iteration either bails out on a missing agent or
keeps looping until the fuel (the timeout) runs out. -/
theorem finalizationLoop_never_true (statusAtCheck : ℕ → Option AgentStatus) :
    ∀ fuel k, finalizationLoop statusAtCheck fuel k = false
  | 0, _ => rfl
  | fuel + 1, k => by
      unfold finalizationLoop
      cases statusAtCheck k with
      | none => rfl
      | some st =>
          simp [enumEqStr, finalizationLoop_never_true statusAtCheck fuel (k + 1)]

/-- C8 (code bug): `_run_finalization_phase` compares `agent.status`, an
`AgentStatus` enum member, with the strings `'completed'` and `'error'`
(lines 587 and 590); a plain-`Enum` member never equals a `str`, so neither
branch can fire and the loop always runs to timeout and returns failure —
even for an agent whose status is `AgentStatus.COMPLETED` at the very first
15-second check of the default 600-second window, where the claim (and the
spec, whose intent the agent-manager's own enum-based status handling and
the unreachable success log line confirm) requires the phase to return
success. -/
theorem finalization_never_succeeds :
    (∀ (statusAtCheck : ℕ → Option AgentStatus) (timeout : ℕ),
      _run_finalization_phase statusAtCheck timeout = false)
    ∧ _run_finalization_phase (fun _ => some AgentStatus.completed) 600 = false := by
  constructor
  · intro statusAtCheck timeout
    exact finalizationLoop_never_true statusAtCheck _ 0
  · exact finalizationLoop_never_true (fun _ => some AgentStatus.completed) _ 0

/-! ## C9: the semantic-verification score is never cached -/

/-- C9 (code bug): after a fresh semantic verification the detector stores
`agent.last_verification_time` but never assigns
`agent.last_verification_score` (the `Agent` dataclass field exists for
exactly this purpose and is only ever *read*, at line 527).  Concretely:
with the default configuration, a verification at time 0 that parses to
confidence 1 yields the signal 1, yet the agent record still carries the
dataclass default 0.5, and a second detector call 60 s later (inside the
300-s `completion_verification_interval`) — whose own comment says "Use
previous verification result if recent" — uses 0.5, not 1, as the
semantic-verification signal. -/
theorem verification_score_not_cached :
    ((calculate_completion_confidence defaultDetectorConfig
      { is_working := false, has_recent_activity := false,
        minutes_since_activity := none,
        vstate := initialVerificationState, now := 0,
        verification_oracle := { verification_sent := true, confidence_score := 1 },
        task_elapsed_min := none }).1.verification_score = 1)
    ∧ ((calculate_completion_confidence defaultDetectorConfig
      { is_working := false, has_recent_activity := false,
        minutes_since_activity := none,
        vstate := initialVerificationState, now := 0,
        verification_oracle := { verification_sent := true, confidence_score := 1 },
        task_elapsed_min := none }).2
      = { last_verification_time := some 0, last_verification_score := 1/2 })
    ∧ ((calculate_completion_confidence defaultDetectorConfig
      { is_working := false, has_recent_activity := false,
        minutes_since_activity := none,
        vstate := { last_verification_time := some 0, last_verification_score := 1/2 },
        now := 60,
        verification_oracle := { verification_sent := true, confidence_score := 1 },
        task_elapsed_min := none }).1.verification_score = 1/2) := by
  refine ⟨?_, ?_, ?_⟩ <;>
    norm_num [calculate_completion_confidence, semanticVerificationSignal,
      defaultDetectorConfig, initialVerificationState]

/-! ## C3: working/completion pattern precedence and the grace period -/

/-- A concrete captured-output string with no working and no completion
pattern in it. -/
def plainOutput : String := "hello"

/-- A concrete captured-output string whose recent lines match a working
pattern (a line ending in three dots). -/
def buildingOutput : String := "Building..."

/-- Counterexample to C3 as stated: the claim says that when neither pattern
family matches and a message was sent within the grace period, the check
returns true.  `check_agent_working` tests the elapsed time with the Python
truthiness guard `if agent.time_since_message():` (line 372), so an elapsed
time of exactly 0 seconds — which is within any positive grace period — skips
the grace check and the function returns false. -/
theorem check_agent_working_zero_counterexample :
    (0 : ℚ) < 30
    ∧ check_agent_working (fun _ => false) (fun _ => false)
        (some plainOutput) (some 0) 30 = false := by
  constructor
  · norm_num
  · rfl

/-- C3 (amended): for an agent with captured (non-empty) output,
`check_agent_working` returns false whenever the completion-pattern family
matches the recent non-empty lines, regardless of the working patterns and
of the grace period (completion takes precedence); it returns true when a
working pattern matches and no completion pattern does; and when neither
family matches it returns true if a message was sent a *positive* time ago
that is within the grace period (an exactly-zero elapsed time fails the
Python truthiness guard and returns false). -/
theorem check_agent_working_spec
    (hasCompletionPatterns hasWorkingPatterns : List String → Bool)
    (o : String) (timeSinceMessage : Option ℚ) (gracePeriod : ℚ)
    (ho : o ≠ emptyStr) :
    (hasCompletionPatterns (recentLines o) = true →
      check_agent_working hasCompletionPatterns hasWorkingPatterns
        (some o) timeSinceMessage gracePeriod = false)
    ∧ (hasCompletionPatterns (recentLines o) = false →
       hasWorkingPatterns (recentLines o) = true →
      check_agent_working hasCompletionPatterns hasWorkingPatterns
        (some o) timeSinceMessage gracePeriod = true)
    ∧ (∀ t : ℚ, hasCompletionPatterns (recentLines o) = false →
       hasWorkingPatterns (recentLines o) = false →
       timeSinceMessage = some t → 0 < t → t < gracePeriod →
      check_agent_working hasCompletionPatterns hasWorkingPatterns
        (some o) timeSinceMessage gracePeriod = true) := by
  refine ⟨?_, ?_, ?_⟩
  · intro hc
    simp [check_agent_working, ho, hc]
  · intro hc hw
    simp [check_agent_working, ho, hc, hw]
  · intro t hc hw ht hpos hlt
    have hne : ¬ t = 0 := by exact ne_of_gt hpos
    simp [check_agent_working, ho, hc, hw, ht, graceFallback, hne, hlt]

/-- Witness for C3's amended theorem: concrete output `"Building..."`, a
working-pattern verdict of true and a completion verdict of false give a
true result; and with no patterns, a message 5 s ago within a 30-s grace
period gives a true result. -/
theorem check_agent_working_spec_witness :
    (check_agent_working (fun _ => false) (fun _ => true)
      (some buildingOutput) none 30 = true)
    ∧ (check_agent_working (fun _ => false) (fun _ => false)
      (some plainOutput) (some 5) 30 = true) := by
  constructor
  · exact (check_agent_working_spec (fun _ => false) (fun _ => true)
      buildingOutput none 30 (by decide)).2.1 rfl rfl
  · exact (check_agent_working_spec (fun _ => false) (fun _ => false)
      plainOutput (some 5) 30 (by decide)).2.2 5 rfl rfl rfl
      (by norm_num) (by norm_num)

/-! ## C2: the weighted completion-confidence score -/

theorem ccc_overall (cfg : DetectorConfig) (inp : DetectorInput) :
    (calculate_completion_confidence cfg inp).1.overall_confidence
      = patternScore inp.is_working * cfg.weight_patterns
        + fileScore cfg.file_activity_timeout inp.has_recent_activity
            inp.minutes_since_activity * cfg.weight_file_activity
        + (semanticVerificationSignal cfg.verification_enabled
            cfg.verification_interval inp.vstate inp.now
            inp.verification_oracle).1 * cfg.weight_verification
        + timeScore cfg.task_minimum_duration_min inp.task_elapsed_min
            * cfg.weight_time := rfl

theorem ccc_pattern (cfg : DetectorConfig) (inp : DetectorInput) :
    (calculate_completion_confidence cfg inp).1.pattern_score
      = patternScore inp.is_working := rfl

theorem ccc_file (cfg : DetectorConfig) (inp : DetectorInput) :
    (calculate_completion_confidence cfg inp).1.file_activity_score
      = fileScore cfg.file_activity_timeout inp.has_recent_activity
          inp.minutes_since_activity := rfl

theorem ccc_verification (cfg : DetectorConfig) (inp : DetectorInput) :
    (calculate_completion_confidence cfg inp).1.verification_score
      = (semanticVerificationSignal cfg.verification_enabled
          cfg.verification_interval inp.vstate inp.now
          inp.verification_oracle).1 := rfl

theorem ccc_time (cfg : DetectorConfig) (inp : DetectorInput) :
    (calculate_completion_confidence cfg inp).1.time_score
      = timeScore cfg.task_minimum_duration_min inp.task_elapsed_min := rfl

theorem ccc_likely (cfg : DetectorConfig) (inp : DetectorInput) :
    (calculate_completion_confidence cfg inp).1.completion_likely
      = decide (cfg.threshold
          ≤ (calculate_completion_confidence cfg inp).1.overall_confidence) := rfl

/-- A convex combination of four values in `[0,1]`, with nonnegative weights
summing to 1, lies in `[0,1]`. -/
theorem weighted_mean_bounds (w1 w2 w3 w4 s1 s2 s3 s4 : ℚ)
    (h1 : 0 ≤ w1) (h2 : 0 ≤ w2) (h3 : 0 ≤ w3) (h4 : 0 ≤ w4)
    (hsum : w1 + w2 + w3 + w4 = 1)
    (a1 : 0 ≤ s1) (b1 : s1 ≤ 1) (a2 : 0 ≤ s2) (b2 : s2 ≤ 1)
    (a3 : 0 ≤ s3) (b3 : s3 ≤ 1) (a4 : 0 ≤ s4) (b4 : s4 ≤ 1) :
    0 ≤ s1 * w1 + s2 * w2 + s3 * w3 + s4 * w4
    ∧ s1 * w1 + s2 * w2 + s3 * w3 + s4 * w4 ≤ 1 := by
  constructor
  · have n1 := mul_nonneg a1 h1
    have n2 := mul_nonneg a2 h2
    have n3 := mul_nonneg a3 h3
    have n4 := mul_nonneg a4 h4
    linarith
  · have e1 : s1 * w1 ≤ w1 := mul_le_of_le_one_left h1 b1
    have e2 : s2 * w2 ≤ w2 := mul_le_of_le_one_left h2 b2
    have e3 : s3 * w3 ≤ w3 := mul_le_of_le_one_left h3 b3
    have e4 : s4 * w4 ≤ w4 := mul_le_of_le_one_left h4 b4
    linarith

/-- A weight configuration that sums to 1 but has a negative entry. -/
def cexConfig : DetectorConfig :=
  { weight_patterns := 2
    weight_file_activity := -1
    weight_verification := 0
    weight_time := 0
    file_activity_timeout := 10
    verification_enabled := false
    verification_interval := 300
    task_minimum_duration_min := 5
    threshold := 7/10 }

/-- A detector input whose signal scores are 1, 0, 0.5 and 0.5. -/
def cexInput : DetectorInput :=
  { is_working := false
    has_recent_activity := true
    minutes_since_activity := none
    vstate := initialVerificationState
    now := 0
    verification_oracle := { verification_sent := false, confidence_score := 0 }
    task_elapsed_min := none }

/-- Counterexample to C2 as stated: C2 asserts the overall confidence lies in
`[0,1]` whenever the weights sum to 1.0 and each signal score lies in
`[0,1]`, with no nonnegativity requirement on the configured weights.  With
weights `(2, -1, 0, 0)` — which sum to 1 — and signal scores
`(1, 0, 0.5, 0.5)`, all in `[0,1]`, the code computes an overall confidence
of 2. -/
theorem confidence_bounds_counterexample :
    cexConfig.weight_patterns + cexConfig.weight_file_activity
      + cexConfig.weight_verification + cexConfig.weight_time = 1
    ∧ (0 ≤ (calculate_completion_confidence cexConfig cexInput).1.pattern_score
       ∧ (calculate_completion_confidence cexConfig cexInput).1.pattern_score ≤ 1)
    ∧ (0 ≤ (calculate_completion_confidence cexConfig cexInput).1.file_activity_score
       ∧ (calculate_completion_confidence cexConfig cexInput).1.file_activity_score ≤ 1)
    ∧ (0 ≤ (calculate_completion_confidence cexConfig cexInput).1.verification_score
       ∧ (calculate_completion_confidence cexConfig cexInput).1.verification_score ≤ 1)
    ∧ (0 ≤ (calculate_completion_confidence cexConfig cexInput).1.time_score
       ∧ (calculate_completion_confidence cexConfig cexInput).1.time_score ≤ 1)
    ∧ (calculate_completion_confidence cexConfig cexInput).1.overall_confidence = 2
    ∧ ¬ ((calculate_completion_confidence cexConfig cexInput).1.overall_confidence ≤ 1) := by
  norm_num [ccc_overall, ccc_pattern, ccc_file, ccc_verification, ccc_time,
    cexConfig, cexInput, patternScore, fileScore, timeScore,
    semanticVerificationSignal]

/-- C2 (amended): the overall confidence equals the weighted sum of the four
signal scores with the configured weights; whenever the weights are
*nonnegative* and sum to 1.0 and each signal score is in `[0,1]`, the overall
confidence is in `[0,1]`; with all weights zero except one whose value is 1
(as forced by the sum-to-1.0 requirement), the overall confidence equals that
signal's score; and `completion_likely` holds exactly when the overall
confidence reaches the configured threshold. -/
theorem calculate_completion_confidence_spec (cfg : DetectorConfig) (inp : DetectorInput) :
    ((calculate_completion_confidence cfg inp).1.overall_confidence
      = (calculate_completion_confidence cfg inp).1.pattern_score * cfg.weight_patterns
        + (calculate_completion_confidence cfg inp).1.file_activity_score
            * cfg.weight_file_activity
        + (calculate_completion_confidence cfg inp).1.verification_score
            * cfg.weight_verification
        + (calculate_completion_confidence cfg inp).1.time_score * cfg.weight_time)
    ∧ (0 ≤ cfg.weight_patterns → 0 ≤ cfg.weight_file_activity →
       0 ≤ cfg.weight_verification → 0 ≤ cfg.weight_time →
       cfg.weight_patterns + cfg.weight_file_activity
         + cfg.weight_verification + cfg.weight_time = 1 →
       0 ≤ (calculate_completion_confidence cfg inp).1.pattern_score →
       (calculate_completion_confidence cfg inp).1.pattern_score ≤ 1 →
       0 ≤ (calculate_completion_confidence cfg inp).1.file_activity_score →
       (calculate_completion_confidence cfg inp).1.file_activity_score ≤ 1 →
       0 ≤ (calculate_completion_confidence cfg inp).1.verification_score →
       (calculate_completion_confidence cfg inp).1.verification_score ≤ 1 →
       0 ≤ (calculate_completion_confidence cfg inp).1.time_score →
       (calculate_completion_confidence cfg inp).1.time_score ≤ 1 →
       0 ≤ (calculate_completion_confidence cfg inp).1.overall_confidence
       ∧ (calculate_completion_confidence cfg inp).1.overall_confidence ≤ 1)
    ∧ (cfg.weight_file_activity = 0 → cfg.weight_verification = 0 →
       cfg.weight_time = 0 →
       cfg.weight_patterns + cfg.weight_file_activity
         + cfg.weight_verification + cfg.weight_time = 1 →
       (calculate_completion_confidence cfg inp).1.overall_confidence
         = (calculate_completion_confidence cfg inp).1.pattern_score)
    ∧ (cfg.weight_patterns = 0 → cfg.weight_verification = 0 →
       cfg.weight_time = 0 →
       cfg.weight_patterns + cfg.weight_file_activity
         + cfg.weight_verification + cfg.weight_time = 1 →
       (calculate_completion_confidence cfg inp).1.overall_confidence
         = (calculate_completion_confidence cfg inp).1.file_activity_score)
    ∧ (cfg.weight_patterns = 0 → cfg.weight_file_activity = 0 →
       cfg.weight_time = 0 →
       cfg.weight_patterns + cfg.weight_file_activity
         + cfg.weight_verification + cfg.weight_time = 1 →
       (calculate_completion_confidence cfg inp).1.overall_confidence
         = (calculate_completion_confidence cfg inp).1.verification_score)
    ∧ (cfg.weight_patterns = 0 → cfg.weight_file_activity = 0 →
       cfg.weight_verification = 0 →
       cfg.weight_patterns + cfg.weight_file_activity
         + cfg.weight_verification + cfg.weight_time = 1 →
       (calculate_completion_confidence cfg inp).1.overall_confidence
         = (calculate_completion_confidence cfg inp).1.time_score)
    ∧ ((calculate_completion_confidence cfg inp).1.completion_likely = true
       ↔ cfg.threshold
           ≤ (calculate_completion_confidence cfg inp).1.overall_confidence) := by
  refine ⟨rfl, ?_, ?_, ?_, ?_, ?_, ?_⟩
  · intro h1 h2 h3 h4 hsum a1 b1 a2 b2 a3 b3 a4 b4
    rw [ccc_overall]
    rw [ccc_pattern] at a1 b1
    rw [ccc_file] at a2 b2
    rw [ccc_verification] at a3 b3
    rw [ccc_time] at a4 b4
    exact weighted_mean_bounds _ _ _ _ _ _ _ _ h1 h2 h3 h4 hsum a1 b1 a2 b2 a3 b3 a4 b4
  · intro hf hv ht hsum
    have hp : cfg.weight_patterns = 1 := by linarith
    rw [ccc_overall, ccc_pattern, hf, hv, ht, hp]
    ring
  · intro hp hv ht hsum
    have hf : cfg.weight_file_activity = 1 := by linarith
    rw [ccc_overall, ccc_file, hp, hv, ht, hf]
    ring
  · intro hp hf ht hsum
    have hv : cfg.weight_verification = 1 := by linarith
    rw [ccc_overall, ccc_verification, hp, hf, ht, hv]
    ring
  · intro hp hf hv hsum
    have ht : cfg.weight_time = 1 := by linarith
    rw [ccc_overall, ccc_time, hp, hf, hv, ht]
    ring
  · rw [ccc_likely]
    exact decide_eq_true_iff

/-- A benign detector input for the C2 witness: signal scores 0, 0.5, 0.75
and 0.5. -/
def witnessInput : DetectorInput :=
  { is_working := true
    has_recent_activity := true
    minutes_since_activity := some 5
    vstate := initialVerificationState
    now := 0
    verification_oracle := { verification_sent := true, confidence_score := 3/4 }
    task_elapsed_min := none }

/-- Witness for C2's amended theorem at the default configuration (weights
0.25/0.25/0.35/0.15, which are nonnegative and sum to 1) and the concrete
input `witnessInput`. -/
theorem calculate_completion_confidence_spec_witness :
    0 ≤ (calculate_completion_confidence defaultDetectorConfig witnessInput).1.overall_confidence
    ∧ (calculate_completion_confidence defaultDetectorConfig witnessInput).1.overall_confidence ≤ 1 :=
  (calculate_completion_confidence_spec defaultDetectorConfig witnessInput).2.1
    (by norm_num [defaultDetectorConfig]) (by norm_num [defaultDetectorConfig])
    (by norm_num [defaultDetectorConfig]) (by norm_num [defaultDetectorConfig])
    (by norm_num [defaultDetectorConfig])
    (by norm_num [ccc_pattern, defaultDetectorConfig, witnessInput, patternScore])
    (by norm_num [ccc_pattern, defaultDetectorConfig, witnessInput, patternScore])
    (by norm_num [ccc_file, defaultDetectorConfig, witnessInput, fileScore])
    (by norm_num [ccc_file, defaultDetectorConfig, witnessInput, fileScore])
    (by norm_num [ccc_verification, defaultDetectorConfig, witnessInput,
      semanticVerificationSignal, initialVerificationState])
    (by norm_num [ccc_verification, defaultDetectorConfig, witnessInput,
      semanticVerificationSignal, initialVerificationState])
    (by norm_num [ccc_time, defaultDetectorConfig, witnessInput, timeScore])
    (by norm_num [ccc_time, defaultDetectorConfig, witnessInput, timeScore])

/-! ## C5: round-robin task division -/

/-- Unfolding of the `_divide_tasks` loop: each agent's list is the
accumulator's list followed by the steps whose index is congruent to the
agent id modulo the agent count, in order. -/
theorem foldl_divideStep {α : Type} (n : ℕ) (l : List (ℕ × α)) (m : ℕ → List α)
    (i : ℕ) :
    (l.foldl (divideStep n) m) i
      = m i ++ (l.filter fun pr => decide (pr.1 % n = i)).map Prod.snd := by
  induction l generalizing m with
  | nil => simp
  | cons hd tl ih =>
      rw [List.foldl_cons, ih]
      by_cases h : hd.1 % n = i
      · simp [divideStep, updateFn, h, List.filter_cons]
      · simp [divideStep, updateFn, h, List.filter_cons, Ne.symm h]

/-- `_divide_tasks` assigns to agent `i` exactly the enumerated steps with
index `≡ i (mod numAgents)`, in prompt order. -/
theorem _divide_tasks_eq {α : Type} (steps : List α) (n i : ℕ) :
    _divide_tasks steps n i
      = (steps.enum.filter fun pr => decide (pr.1 % n = i)).map Prod.snd := by
  unfold _divide_tasks
  rw [foldl_divideStep]
  simp

/-- The number of naturals below `L` congruent to `i` modulo `n`. -/
theorem count_mod_range (n : ℕ) (hn : 0 < n) (i : ℕ) (hi : i < n) (L : ℕ) :
    ((List.range L).filter fun k => decide (k % n = i)).length
      = L / n + (if i < L % n then 1 else 0) := by
  have hmod : i % n = i := Nat.mod_eq_of_lt hi
  have h := Nat.count_modEq_card L hn i
  rw [hmod] at h
  rw [Nat.count, List.countP_eq_length_filter] at h
  rw [← h]
  congr 1
  refine List.filter_congr fun k _ => ?_
  simp [Nat.ModEq, hmod]

/-- The size of agent `i`'s slice of the round-robin division. -/
theorem _divide_tasks_length {α : Type} (steps : List α) (n i : ℕ)
    (hn : 0 < n) (hi : i < n) :
    (_divide_tasks steps n i).length
      = steps.length / n + (if i < steps.length % n then 1 else 0) := by
  rw [_divide_tasks_eq, List.length_map, ← List.countP_eq_length_filter]
  have h1 : (steps.enum).countP (fun pr => decide (pr.1 % n = i))
      = ((steps.enum.map Prod.fst).countP fun k => decide (k % n = i)) := by
    rw [List.countP_map]
    rfl
  rw [h1, List.enum_map_fst, List.countP_eq_length_filter, count_mod_range n hn i hi]

/-- C5: `_divide_tasks` assigns the `idx`-th task (0-based) to agent
`idx % n` — agent `i`'s slice is exactly the sublist of enumerated steps
with index `≡ i (mod n)` (which also makes the division a deterministic
function of the task list and the agent count); each enumerated task
belongs to the slice source of agent `k` exactly when `k = idx % n`;
and any two agents' slice sizes differ by at most 1. -/
theorem divide_tasks_round_robin {α : Type} (steps : List α) (n i j idx : ℕ)
    (hn : 1 ≤ n) (hi : i < n) (hj : j < n) (hidx : idx < steps.length) :
    (_divide_tasks steps n i
      = (steps.enum.filter fun pr => decide (pr.1 % n = i)).map Prod.snd)
    ∧ steps[idx] ∈ _divide_tasks steps n (idx % n)
    ∧ (∀ k, ((idx, steps[idx])
        ∈ steps.enum.filter fun pr => decide (pr.1 % n = k)) ↔ k = idx % n)
    ∧ (_divide_tasks steps n i).length ≤ (_divide_tasks steps n j).length + 1 := by
  have hn0 : 0 < n := hn
  have hmem : (idx, steps[idx]) ∈ steps.enum := by
    have hlen : idx < steps.enum.length := by
      rw [List.enum_length]
      exact hidx
    have hget : steps.enum[idx] = (idx, steps[idx]) := List.getElem_enum ..
    rw [← hget]
    exact List.getElem_mem hlen
  refine ⟨_divide_tasks_eq steps n i, ?_, ?_, ?_⟩
  · rw [_divide_tasks_eq]
    refine List.mem_map.mpr ⟨(idx, steps[idx]), ?_, rfl⟩
    refine List.mem_filter.mpr ⟨hmem, by simp⟩
  · intro k
    constructor
    · intro hk
      have := (List.mem_filter.mp hk).2
      simp only [decide_eq_true_eq] at this
      omega
    · rintro rfl
      exact List.mem_filter.mpr ⟨hmem, by simp⟩
  · rw [_divide_tasks_length steps n i hn0 hi, _divide_tasks_length steps n j hn0 hj]
    split_ifs <;> omega

/-- Witness for C5 at steps `[10, 20, 30]` and two agents: task 2 goes to
agent `2 % 2 = 0`, and the slice sizes (2 and 1) differ by at most 1. -/
theorem divide_tasks_round_robin_witness :
    (10 : ℕ) ∈ _divide_tasks [10, 20, 30] 2 0
    ∧ (30 : ℕ) ∈ _divide_tasks [10, 20, 30] 2 (2 % 2)
    ∧ (_divide_tasks [10, 20, 30] 2 0).length
        ≤ (_divide_tasks [10, 20, 30] 2 1).length + 1 := by
  have h := divide_tasks_round_robin [10, 20, 30] 2 0 1 2
    (by norm_num) (by norm_num) (by norm_num) (by norm_num)
  refine ⟨?_, h.2.1, h.2.2.2⟩
  have h0 := divide_tasks_round_robin [10, 20, 30] 2 0 1 0
    (by norm_num) (by norm_num) (by norm_num) (by norm_num)
  simpa using h0.2.1

/-! ## C6: merge selects exactly the completed projects and is idempotent -/

theorem copyFile_merged (policy : String) (aid : ℕ) (acc : MergeAcc)
    (f : String × String) : (copyFile policy aid acc f).merged = acc.merged := by
  unfold copyFile
  cases lookupA acc.final f.1
  · rfl
  · dsimp only
    split <;> rfl

theorem copyFile_total (policy : String) (aid : ℕ) (acc : MergeAcc)
    (f : String × String) : (copyFile policy aid acc f).total = acc.total := by
  unfold copyFile
  cases lookupA acc.final f.1
  · rfl
  · dsimp only
    split <;> rfl

theorem foldl_copyFile_merged (policy : String) (aid : ℕ)
    (fs : List (String × String)) (acc : MergeAcc) :
    (fs.foldl (copyFile policy aid) acc).merged = acc.merged := by
  induction fs generalizing acc with
  | nil => rfl
  | cons hd tl ih => rw [List.foldl_cons, ih, copyFile_merged]

/-- The outer project loop appends exactly the processed agent ids to
`merged_projects`, in order. -/
theorem foldl_mergeOneProject_merged (policy : String) (ps : List AgentProject)
    (st : MergeAcc) :
    (ps.foldl (mergeOneProject policy) st).merged
      = st.merged ++ ps.map AgentProject.agent_id := by
  induction ps generalizing st with
  | nil => simp
  | cons hd tl ih =>
      rw [List.foldl_cons, ih]
      have h : (mergeOneProject policy st hd).merged
          = st.merged ++ [hd.agent_id] := rfl
      rw [h]
      simp

/-- `_merge_with_files` reports every processed project as merged (the model
has no filesystem exceptions, so the `failed_projects` branch is
unreachable). -/
theorem mergeWithFiles_merged (policy sid : String) (projects : List AgentProject)
    (final0 : FileTree) :
    (mergeWithFiles policy sid projects final0).results.merged_projects
      = projects.map AgentProject.agent_id := by
  unfold mergeWithFiles
  dsimp only
  rw [foldl_mergeOneProject_merged]
  simp

/-- C6: `merge_agent_projects` merges exactly the projects whose status is
`COMPLETED` (its `merged_projects` are their agent ids, in order), and
transitions each of them — and no other project — to `MERGED`; consequently
an immediate second run finds no completed project, selects nothing, copies
nothing, writes nothing, and returns the empty results with the state
unchanged. -/
theorem merge_completed_idempotent (policy sid : String) (s : CoordState) :
    ((merge_agent_projects policy sid s).1.merged_projects
      = (s.projects.filter fun p =>
          decide (p.status = ProjectStatus.completed)).map AgentProject.agent_id)
    ∧ ((merge_agent_projects policy sid s).2.projects
      = s.projects.map fun p =>
          if p.status = ProjectStatus.completed
          then { p with status := ProjectStatus.merged } else p)
    ∧ merge_agent_projects policy sid (merge_agent_projects policy sid s).2
        = (emptyResults, (merge_agent_projects policy sid s).2) := by
  have hmerged : (merge_agent_projects policy sid s).1.merged_projects
      = (s.projects.filter fun p =>
          decide (p.status = ProjectStatus.completed)).map AgentProject.agent_id := by
    by_cases hc : s.projects.filter
        (fun p => decide (p.status = ProjectStatus.completed)) = []
    · have hnone : ∀ p ∈ s.projects, p.status ≠ ProjectStatus.completed := by
        rw [List.filter_eq_nil_iff] at hc
        simpa using hc
      rw [merge_of_no_completed policy sid s hnone, hc]
      rfl
    · simp only [merge_agent_projects, hc, if_neg, ite_false]
      rw [mergeWithFiles_merged]
  have hproj : (merge_agent_projects policy sid s).2.projects
      = s.projects.map fun p =>
          if p.status = ProjectStatus.completed
          then { p with status := ProjectStatus.merged } else p := by
    by_cases hc : s.projects.filter
        (fun p => decide (p.status = ProjectStatus.completed)) = []
    · have hnone : ∀ p ∈ s.projects, p.status ≠ ProjectStatus.completed := by
        rw [List.filter_eq_nil_iff] at hc
        simpa using hc
      rw [merge_of_no_completed policy sid s hnone]
      have hid : ∀ p ∈ s.projects,
          (if p.status = ProjectStatus.completed
           then { p with status := ProjectStatus.merged } else p) = p := by
        intro p hp
        simp [hnone p hp]
      calc s.projects = s.projects.map id := (List.map_id _).symm
        _ = _ := List.map_congr_left fun p hp => (hid p hp).symm
    · simp only [merge_agent_projects, hc, ite_false]
      simp only [mergeWithFiles_merged]
      refine List.map_congr_left fun p hp => ?_
      by_cases hps : p.status = ProjectStatus.completed
      · have hmemid : p.agent_id ∈ (s.projects.filter fun q =>
            decide (q.status = ProjectStatus.completed)).map AgentProject.agent_id :=
          List.mem_map_of_mem _ (List.mem_filter.mpr ⟨hp, by simp [hps]⟩)
        simp [hps, hmemid]
      · simp [hps]
  have hsecond : merge_agent_projects policy sid (merge_agent_projects policy sid s).2
      = (emptyResults, (merge_agent_projects policy sid s).2) := by
    apply merge_of_no_completed
    rw [hproj]
    intro q hq
    obtain ⟨p, hp, rfl⟩ := List.mem_map.mp hq
    by_cases hps : p.status = ProjectStatus.completed
    · simp [hps]
    · simp only [hps, if_false, ite_false]
      exact hps
  exact ⟨hmerged, hproj, hsecond⟩

/-! ## Path-tracking lemmas for the file-copy merge (C1, C7) -/

/-- A file-copy step for a file at a different path leaves the final tree,
the source map, and the conflict list at path `p` unchanged. -/
theorem copyFile_untouched (policy : String) (aid : ℕ) (acc : MergeAcc)
    (f : String × String) (p : String) (h : f.1 ≠ p) :
    lookupA (copyFile policy aid acc f).final p = lookupA acc.final p
    ∧ lookupA (copyFile policy aid acc f).sources p = lookupA acc.sources p
    ∧ ((p ∈ (copyFile policy aid acc f).conflict_paths)
        ↔ p ∈ acc.conflict_paths) := by
  unfold copyFile
  cases lookupA acc.final f.1
  · exact ⟨lookupA_setA_ne _ _ _ _ (Ne.symm h),
      lookupA_setA_ne _ _ _ _ (Ne.symm h), Iff.rfl⟩
  · dsimp only
    split
    · exact ⟨lookupA_setA_ne _ _ _ _ (Ne.symm h),
        lookupA_setA_ne _ _ _ _ (Ne.symm h), Iff.rfl⟩
    · refine ⟨rfl, lookupA_setA_ne _ _ _ _ (Ne.symm h), ?_⟩
      simp [List.mem_append, Ne.symm h]

/-- Folding files none of which sits at path `p` leaves everything at `p`
unchanged. -/
theorem foldl_copyFile_untouched (policy : String) (aid : ℕ)
    (fs : List (String × String)) (acc : MergeAcc) (p : String)
    (hp : p ∉ fs.map Prod.fst) :
    lookupA (fs.foldl (copyFile policy aid) acc).final p = lookupA acc.final p
    ∧ lookupA (fs.foldl (copyFile policy aid) acc).sources p
        = lookupA acc.sources p
    ∧ ((p ∈ (fs.foldl (copyFile policy aid) acc).conflict_paths)
        ↔ p ∈ acc.conflict_paths) := by
  induction fs generalizing acc with
  | nil => exact ⟨rfl, rfl, Iff.rfl⟩
  | cons hd tl ih =>
      have hhd : hd.1 ≠ p := by
        intro hcontra
        exact hp (by
          rw [List.map_cons, ← hcontra]
          exact List.mem_cons_self _ _)
      have htl : p ∉ tl.map Prod.fst := fun hmem => hp (by
        rw [List.map_cons]
        exact List.mem_cons_of_mem _ hmem)
      rw [List.foldl_cons]
      obtain ⟨e1, e2, e3⟩ := ih (copyFile policy aid acc hd) htl
      obtain ⟨s1, s2, s3⟩ := copyFile_untouched policy aid acc hd p hhd
      exact ⟨e1.trans s1, e2.trans s2, e3.trans s3⟩

/-- A file-copy step at a path absent from the destination: copy the file
and record the writing agent as its (sole) source. -/
theorem copyFile_at_new (policy : String) (aid : ℕ) (acc : MergeAcc)
    (p c : String) (h : lookupA acc.final p = none) :
    copyFile policy aid acc (p, c)
      = { acc with
            final := setA acc.final p c
            sources := setA acc.sources p [aid]
            copied := acc.copied + 1 } := by
  have h' : lookupA acc.final (p, c).1 = none := h
  unfold copyFile
  rw [h']

/-- A file-copy step at an already-present path under a non-`overwrite`
policy: do not copy, append the agent to the path's sources, and append a
conflict record. -/
theorem copyFile_at_dup_skip (policy : String) (aid : ℕ) (acc : MergeAcc)
    (p c w : String) (h : lookupA acc.final p = some w)
    (hpol : ¬ policy = overwriteStr) :
    copyFile policy aid acc (p, c)
      = { acc with
            sources := setA acc.sources p
              (((lookupA acc.sources p).getD []) ++ [aid])
            conflict_paths := acc.conflict_paths ++ [p] } := by
  have h' : lookupA acc.final (p, c).1 = some w := h
  unfold copyFile
  rw [h']
  dsimp only
  rw [if_neg hpol]

/-- A file-copy step at an already-present path under the `overwrite`
policy: copy over the destination and append the agent to the path's
sources — but append no conflict record. -/
theorem copyFile_at_dup_overwrite (aid : ℕ) (acc : MergeAcc)
    (p c w : String) (h : lookupA acc.final p = some w) :
    copyFile overwriteStr aid acc (p, c)
      = { acc with
            final := setA acc.final p c
            sources := setA acc.sources p
              (((lookupA acc.sources p).getD []) ++ [aid])
            copied := acc.copied + 1 } := by
  have h' : lookupA acc.final (p, c).1 = some w := h
  unfold copyFile
  rw [h']
  dsimp only
  rw [if_pos rfl]

/-- Folding one project's files `lA ++ (p, c) :: lB` (with `p` occurring only
once) over a state where `p` is absent from the destination. -/
theorem project_fold_at_key_new (policy : String) (aid : ℕ) (p c : String)
    (lA lB : List (String × String)) (acc : MergeAcc)
    (hA : p ∉ lA.map Prod.fst) (hB : p ∉ lB.map Prod.fst)
    (hdest : lookupA acc.final p = none) :
    lookupA ((lA ++ (p, c) :: lB).foldl (copyFile policy aid) acc).final p
        = some c
    ∧ lookupA ((lA ++ (p, c) :: lB).foldl (copyFile policy aid) acc).sources p
        = some [aid]
    ∧ ((p ∈ ((lA ++ (p, c) :: lB).foldl (copyFile policy aid) acc).conflict_paths)
        ↔ p ∈ acc.conflict_paths) := by
  rw [List.foldl_append, List.foldl_cons]
  obtain ⟨bf, bs, bc⟩ := foldl_copyFile_untouched policy aid lA acc p hA
  rw [copyFile_at_new policy aid _ p c (bf.trans hdest)]
  obtain ⟨ef, es, ec⟩ := foldl_copyFile_untouched policy aid lB _ p hB
  refine ⟨?_, ?_, ?_⟩
  · rw [ef]
    exact lookupA_setA_self _ _ _
  · rw [es]
    exact lookupA_setA_self _ _ _
  · exact ec.trans bc

/-- Folding one project's files `lA ++ (p, c) :: lB` (with `p` occurring only
once) over a state where `p` is already present in the destination with
content `w`: the final content at `p` is the new copy under `overwrite` and
the old one otherwise; the writing agent is appended to `p`'s sources; and a
conflict record for `p` is appended exactly under a non-`overwrite` policy. -/
theorem project_fold_at_key_dup (policy : String) (aid : ℕ) (p c w : String)
    (lA lB : List (String × String)) (acc : MergeAcc)
    (hA : p ∉ lA.map Prod.fst) (hB : p ∉ lB.map Prod.fst)
    (hdest : lookupA acc.final p = some w) :
    lookupA ((lA ++ (p, c) :: lB).foldl (copyFile policy aid) acc).final p
        = (if policy = overwriteStr then some c else some w)
    ∧ lookupA ((lA ++ (p, c) :: lB).foldl (copyFile policy aid) acc).sources p
        = some (((lookupA acc.sources p).getD []) ++ [aid])
    ∧ ((p ∈ ((lA ++ (p, c) :: lB).foldl (copyFile policy aid) acc).conflict_paths)
        ↔ (p ∈ acc.conflict_paths ∨ ¬ policy = overwriteStr)) := by
  rw [List.foldl_append, List.foldl_cons]
  obtain ⟨bf, bs, bc⟩ := foldl_copyFile_untouched policy aid lA acc p hA
  by_cases hpol : policy = overwriteStr
  · subst hpol
    rw [copyFile_at_dup_overwrite aid _ p c w (bf.trans hdest)]
    obtain ⟨ef, es, ec⟩ := foldl_copyFile_untouched overwriteStr aid lB _ p hB
    refine ⟨?_, ?_, ?_⟩
    · rw [ef, if_pos rfl]
      exact lookupA_setA_self _ _ _
    · rw [es]
      dsimp only
      rw [lookupA_setA_self, bs]
    · simp [ec.trans bc]
  · rw [copyFile_at_dup_skip policy aid _ p c w (bf.trans hdest) hpol]
    obtain ⟨ef, es, ec⟩ := foldl_copyFile_untouched policy aid lB _ p hB
    refine ⟨?_, ?_, ?_⟩
    · rw [ef, if_neg hpol]
      exact bf.trans hdest
    · rw [es]
      dsimp only
      rw [lookupA_setA_self, bs]
    · have hl := ec.mpr (by simp)
      simp [hl, hpol]

/-- Two completed projects that both contain the relative path `p` (once
each), with arbitrary other files `l1, l2` and `l3, l4` around it. -/
def twoProjectScenario (a1 a2 : ℕ) (c1 c2 p : String)
    (l1 l2 l3 l4 : List (String × String)) : List AgentProject :=
  [{ agent_id := a1, status := ProjectStatus.completed, files := l1 ++ (p, c1) :: l2 },
   { agent_id := a2, status := ProjectStatus.completed, files := l3 ++ (p, c2) :: l4 }]

/-- The starting accumulator of `_merge_with_files`. -/
def initAcc (final0 : FileTree) : MergeAcc :=
  { final := final0, sources := [], conflict_paths := [],
    copied := 0, merged := [], total := 0 }

theorem mergeWithFiles_results_conflicts (policy sid : String)
    (projects : List AgentProject) (final0 : FileTree) :
    (mergeWithFiles policy sid projects final0).results.conflicts
      = (projects.foldl (mergeOneProject policy) (initAcc final0)).conflict_paths.map
          fun q => (q, (lookupA (projects.foldl (mergeOneProject policy)
            (initAcc final0)).sources q).getD []) := rfl

theorem mergeWithFiles_summary_eq (policy sid : String)
    (projects : List AgentProject) (final0 : FileTree) :
    (mergeWithFiles policy sid projects final0).summary
      = mergeSummaryContent sid
          (projects.foldl (mergeOneProject policy) (initAcc final0)).merged.length
          (projects.foldl (mergeOneProject policy) (initAcc final0)).total
          (mergeWithFiles policy sid projects final0).results.conflicts := rfl

theorem mergeWithFiles_final_eq (policy sid : String)
    (projects : List AgentProject) (final0 : FileTree) :
    (mergeWithFiles policy sid projects final0).final
      = setA (projects.foldl (mergeOneProject policy) (initAcc final0)).final
          mergeSummaryName (mergeWithFiles policy sid projects final0).summary := rfl

/-- `project_fold_at_key_new` lifted through the `mergeOneProject` wrapper
(which only changes the `merged`, `total` and `copied` bookkeeping). -/
theorem mergeOneProject_at_key_new (policy : String) (aid : ℕ) (p c : String)
    (stt : ProjectStatus) (lA lB : List (String × String)) (st : MergeAcc)
    (hA : p ∉ lA.map Prod.fst) (hB : p ∉ lB.map Prod.fst)
    (hdest : lookupA st.final p = none) :
    lookupA (mergeOneProject policy st
        { agent_id := aid, status := stt, files := lA ++ (p, c) :: lB }).final p
      = some c
    ∧ lookupA (mergeOneProject policy st
        { agent_id := aid, status := stt, files := lA ++ (p, c) :: lB }).sources p
      = some [aid]
    ∧ ((p ∈ (mergeOneProject policy st
        { agent_id := aid, status := stt, files := lA ++ (p, c) :: lB }).conflict_paths)
      ↔ p ∈ st.conflict_paths) := by
  obtain ⟨f, s, c'⟩ := project_fold_at_key_new policy aid p c lA lB
    { st with copied := 0 } hA hB hdest
  exact ⟨f, s, c'⟩

/-- `project_fold_at_key_dup` lifted through the `mergeOneProject` wrapper. -/
theorem mergeOneProject_at_key_dup (policy : String) (aid : ℕ) (p c w : String)
    (stt : ProjectStatus) (lA lB : List (String × String)) (st : MergeAcc)
    (hA : p ∉ lA.map Prod.fst) (hB : p ∉ lB.map Prod.fst)
    (hdest : lookupA st.final p = some w) :
    lookupA (mergeOneProject policy st
        { agent_id := aid, status := stt, files := lA ++ (p, c) :: lB }).final p
      = (if policy = overwriteStr then some c else some w)
    ∧ lookupA (mergeOneProject policy st
        { agent_id := aid, status := stt, files := lA ++ (p, c) :: lB }).sources p
      = some (((lookupA st.sources p).getD []) ++ [aid])
    ∧ ((p ∈ (mergeOneProject policy st
        { agent_id := aid, status := stt, files := lA ++ (p, c) :: lB }).conflict_paths)
      ↔ (p ∈ st.conflict_paths ∨ ¬ policy = overwriteStr)) := by
  obtain ⟨f, s, c'⟩ := project_fold_at_key_dup policy aid p c w lA lB
    { st with copied := 0 } hA hB hdest
  exact ⟨f, s, c'⟩

/-- State of the merge accumulator at path `p` after processing the
two-project conflict scenario: the final tree holds the second copy under
`overwrite` and the first copy otherwise; `p`'s recorded sources are both
agents in order; and a conflict record was appended for `p` exactly under a
non-`overwrite` policy. -/
theorem two_project_foldl_state (policy : String) (a1 a2 : ℕ) (c1 c2 p : String)
    (l1 l2 l3 l4 : List (String × String)) (final0 : FileTree)
    (h1 : p ∉ l1.map Prod.fst) (h2 : p ∉ l2.map Prod.fst)
    (h3 : p ∉ l3.map Prod.fst) (h4 : p ∉ l4.map Prod.fst)
    (h0 : lookupA final0 p = none) :
    lookupA ((twoProjectScenario a1 a2 c1 c2 p l1 l2 l3 l4).foldl
        (mergeOneProject policy) (initAcc final0)).final p
      = (if policy = overwriteStr then some c2 else some c1)
    ∧ lookupA ((twoProjectScenario a1 a2 c1 c2 p l1 l2 l3 l4).foldl
        (mergeOneProject policy) (initAcc final0)).sources p = some [a1, a2]
    ∧ ((p ∈ ((twoProjectScenario a1 a2 c1 c2 p l1 l2 l3 l4).foldl
        (mergeOneProject policy) (initAcc final0)).conflict_paths)
      ↔ ¬ policy = overwriteStr) := by
  unfold twoProjectScenario
  rw [List.foldl_cons, List.foldl_cons, List.foldl_nil]
  obtain ⟨p1f, p1s, p1c⟩ := mergeOneProject_at_key_new policy a1 p c1
    ProjectStatus.completed l1 l2 (initAcc final0) h1 h2 h0
  obtain ⟨p2f, p2s, p2c⟩ := mergeOneProject_at_key_dup policy a2 p c2 c1
    ProjectStatus.completed l3 l4
    (mergeOneProject policy (initAcc final0)
      { agent_id := a1, status := ProjectStatus.completed, files := l1 ++ (p, c1) :: l2 })
    h3 h4 p1f
  refine ⟨p2f, ?_, ?_⟩
  · rw [p2s, p1s]
    rfl
  · rw [p2c, p1c]
    simp [initAcc]

/-! ## Merge-summary containment lemmas -/

/-- Every recorded conflict's line occurs (as a character-infix) in the
accumulated conflict section. -/
theorem conflictLines_contains (c : String × List ℕ) (cs : List (String × List ℕ))
    (h : c ∈ cs) : (conflictLine c).data <:+: (conflictLines cs).data := by
  induction cs with
  | nil => cases h
  | cons hd tl ih =>
      rcases List.mem_cons.mp h with rfl | h2
      · show (conflictLine c).data <:+: (conflictLine c ++ conflictLines tl).data
        rw [String.data_append]
        exact (List.prefix_append _ _).isInfix
      · have htl := ih h2
        show (conflictLine c).data <:+: (conflictLine hd ++ conflictLines tl).data
        rw [String.data_append]
        exact htl.trans (List.suffix_append _ _).isInfix

/-- Every recorded conflict's line occurs in the generated
`MERGE_SUMMARY.md` content. -/
theorem mergeSummaryContent_contains (sid : String) (mc tf : ℕ)
    (cs : List (String × List ℕ)) (c : String × List ℕ) (h : c ∈ cs) :
    (conflictLine c).data <:+: (mergeSummaryContent sid mc tf cs).data := by
  have hne : cs ≠ [] := by
    rintro rfl
    cases h
  unfold mergeSummaryContent
  rw [if_neg hne, String.data_append, String.data_append]
  exact ((conflictLines_contains c cs h).trans
    (List.suffix_append _ _).isInfix).trans (List.suffix_append _ _).isInfix

/-! ## C1: the `overwrite` policy records no conflicts -/

theorem copyFile_overwrite_conflicts (aid : ℕ) (acc : MergeAcc)
    (f : String × String) :
    (copyFile overwriteStr aid acc f).conflict_paths = acc.conflict_paths := by
  unfold copyFile
  cases lookupA acc.final f.1
  · rfl
  · dsimp only
    rw [if_pos rfl]

theorem foldl_copyFile_overwrite_conflicts (aid : ℕ)
    (fs : List (String × String)) (acc : MergeAcc) :
    (fs.foldl (copyFile overwriteStr aid) acc).conflict_paths
      = acc.conflict_paths := by
  induction fs generalizing acc with
  | nil => rfl
  | cons hd tl ih => rw [List.foldl_cons, ih, copyFile_overwrite_conflicts]

theorem foldl_mergeOneProject_overwrite_conflicts (ps : List AgentProject)
    (st : MergeAcc) :
    (ps.foldl (mergeOneProject overwriteStr) st).conflict_paths
      = st.conflict_paths := by
  induction ps generalizing st with
  | nil => rfl
  | cons hd tl ih =>
      rw [List.foldl_cons, ih]
      exact foldl_copyFile_overwrite_conflicts hd.agent_id hd.files _

/-- Under the `overwrite` policy `_merge_with_files` reports no conflicts at
all, whatever the projects and the pre-existing `final-project` content. -/
theorem mergeWithFiles_overwrite_no_conflicts (sid : String)
    (projects : List AgentProject) (final0 : FileTree) :
    (mergeWithFiles overwriteStr sid projects final0).results.conflicts = [] := by
  rw [mergeWithFiles_results_conflicts,
    foldl_mergeOneProject_overwrite_conflicts]
  rfl

/-! ## C7: conflict reporting under the default `skip` policy -/

/-- A concrete relative path for examples. -/
def fileName1 : String := "app.py"

/-- Concrete file contents for examples. -/
def contentA : String := "print(1)"

/-- A second concrete file content. -/
def contentB : String := "print(2)"

/-- Counterexample to C7 as stated: C7 asserts that `final-project` holds the
earlier project's copy of every skipped conflicting path `p`.  For
`p = MERGE_SUMMARY.md` this fails: the conflict is recorded and the earlier
copy is kept during the copy loop, but `_merge_with_files` then writes the
generated merge summary to exactly that path (line 408), clobbering the
earlier project's copy. -/
theorem conflict_summary_clobber_counterexample :
    lookupA ([] : FileTree) mergeSummaryName = none
    ∧ ((mergeSummaryName, [0, 1]) ∈ (mergeWithFiles skipStr sessStr
        (twoProjectScenario 0 1 contentA contentB mergeSummaryName [] [] [] [])
        []).results.conflicts)
    ∧ lookupA (mergeWithFiles skipStr sessStr
        (twoProjectScenario 0 1 contentA contentB mergeSummaryName [] [] [] [])
        []).final mergeSummaryName ≠ some contentA := by
  refine ⟨rfl, ?_, ?_⟩ <;> decide

/-- C7 (amended): under the default `skip` policy, if two completed projects
both contain a file at relative path `p` (not previously present in
`final-project`), then after `_merge_with_files` the conflict list contains
the record `(p, [a1, a2])` with both agents' ids, the generated
`MERGE_SUMMARY.md` content contains the conflict line for `p` with both ids
and is stored in `final-project` under `MERGE_SUMMARY.md`, and — provided `p`
is not itself `MERGE_SUMMARY.md`, which the summary write would overwrite —
`final-project` holds the earlier (first-processed, lower-agent-id) project's
copy of `p` unmodified. -/
theorem merge_skip_conflict_reported (sid : String) (a1 a2 : ℕ) (c1 c2 p : String)
    (l1 l2 l3 l4 : List (String × String)) (final0 : FileTree)
    (h1 : p ∉ l1.map Prod.fst) (h2 : p ∉ l2.map Prod.fst)
    (h3 : p ∉ l3.map Prod.fst) (h4 : p ∉ l4.map Prod.fst)
    (h0 : lookupA final0 p = none) (hname : p ≠ mergeSummaryName) :
    ((p, [a1, a2]) ∈ (mergeWithFiles skipStr sid
        (twoProjectScenario a1 a2 c1 c2 p l1 l2 l3 l4) final0).results.conflicts)
    ∧ ((conflictLine (p, [a1, a2])).data <:+: (mergeWithFiles skipStr sid
        (twoProjectScenario a1 a2 c1 c2 p l1 l2 l3 l4) final0).summary.data)
    ∧ lookupA (mergeWithFiles skipStr sid
        (twoProjectScenario a1 a2 c1 c2 p l1 l2 l3 l4) final0).final p = some c1
    ∧ lookupA (mergeWithFiles skipStr sid
        (twoProjectScenario a1 a2 c1 c2 p l1 l2 l3 l4) final0).final mergeSummaryName
      = some (mergeWithFiles skipStr sid
          (twoProjectScenario a1 a2 c1 c2 p l1 l2 l3 l4) final0).summary := by
  obtain ⟨hf, hs, hc⟩ := two_project_foldl_state skipStr a1 a2 c1 c2 p
    l1 l2 l3 l4 final0 h1 h2 h3 h4 h0
  have hskip : ¬ skipStr = overwriteStr := by decide
  rw [if_neg hskip] at hf
  have hcp := hc.mpr hskip
  have hmem : (p, [a1, a2]) ∈ (mergeWithFiles skipStr sid
      (twoProjectScenario a1 a2 c1 c2 p l1 l2 l3 l4) final0).results.conflicts := by
    rw [mergeWithFiles_results_conflicts]
    refine List.mem_map.mpr ⟨p, hcp, ?_⟩
    rw [hs]
    rfl
  refine ⟨hmem, ?_, ?_, ?_⟩
  · rw [mergeWithFiles_summary_eq]
    exact mergeSummaryContent_contains _ _ _ _ _ hmem
  · rw [mergeWithFiles_final_eq, lookupA_setA_ne _ _ _ _ hname, hf]
  · rw [mergeWithFiles_final_eq]
    exact lookupA_setA_self _ _ _

/-- Witness for C7's amended theorem with agents 0 and 1 both writing
`app.py` into an initially empty `final-project`. -/
theorem merge_skip_conflict_reported_witness :
    ((fileName1, [0, 1]) ∈ (mergeWithFiles skipStr sessStr
        (twoProjectScenario 0 1 contentA contentB fileName1 [] [] [] [])
        []).results.conflicts)
    ∧ lookupA (mergeWithFiles skipStr sessStr
        (twoProjectScenario 0 1 contentA contentB fileName1 [] [] [] [])
        []).final fileName1 = some contentA := by
  have h := merge_skip_conflict_reported sessStr 0 1 contentA contentB fileName1
    [] [] [] [] [] (by simp) (by simp) (by simp) (by simp) rfl (by decide)
  exact ⟨h.1, h.2.2.1⟩

/-! ## C1: conflict records under the `overwrite` policy -/

/-- Counterexample to C1 as stated: C1 asserts that under the `overwrite`
policy a conflict record is appended for every conflicting path.  With two
completed projects both writing `app.py` (the destination exists when the
second project is processed, as the single-project merge shows), the merge
copies the second project's content over the first — but
`results['conflicts']` is empty: line 376 appends a conflict record only in
the non-`overwrite` branch. -/
theorem overwrite_conflict_counterexample :
    lookupA (mergeWithFiles overwriteStr sessStr
        [{ agent_id := 0, status := ProjectStatus.completed,
           files := [(fileName1, contentA)] }] []).final fileName1 = some contentA
    ∧ (mergeWithFiles overwriteStr sessStr
        (twoProjectScenario 0 1 contentA contentB fileName1 [] [] [] [])
        []).results.conflicts = []
    ∧ lookupA (mergeWithFiles overwriteStr sessStr
        (twoProjectScenario 0 1 contentA contentB fileName1 [] [] [] [])
        []).final fileName1 = some contentB := by
  refine ⟨?_, ?_, ?_⟩ <;> decide

/-- C1 (amended): under the `overwrite` policy, a file whose destination
already exists is copied over the destination (the later-processed agent's
copy wins), but *no* conflict record is appended: `results['conflicts']` is
empty for every `overwrite` merge, whatever the projects and the initial
`final-project`; conflict records are appended only under the `skip`
policy. -/
theorem merge_overwrite_no_conflict_record (sid : String)
    (projects : List AgentProject) (final0 : FileTree)
    (a1 a2 : ℕ) (c1 c2 p : String) (l1 l2 l3 l4 : List (String × String))
    (final1 : FileTree)
    (h1 : p ∉ l1.map Prod.fst) (h2 : p ∉ l2.map Prod.fst)
    (h3 : p ∉ l3.map Prod.fst) (h4 : p ∉ l4.map Prod.fst)
    (h0 : lookupA final1 p = none) (hname : p ≠ mergeSummaryName) :
    (mergeWithFiles overwriteStr sid projects final0).results.conflicts = []
    ∧ lookupA (mergeWithFiles overwriteStr sid
        (twoProjectScenario a1 a2 c1 c2 p l1 l2 l3 l4) final1).final p
      = some c2 := by
  refine ⟨mergeWithFiles_overwrite_no_conflicts sid projects final0, ?_⟩
  obtain ⟨hf, hs, hc⟩ := two_project_foldl_state overwriteStr a1 a2 c1 c2 p
    l1 l2 l3 l4 final1 h1 h2 h3 h4 h0
  rw [if_pos rfl] at hf
  rw [mergeWithFiles_final_eq, lookupA_setA_ne _ _ _ _ hname, hf]

/-- Witness for C1's amended theorem with agents 0 and 1 both writing
`app.py` into an initially empty `final-project` under `overwrite`. -/
theorem merge_overwrite_no_conflict_record_witness :
    (mergeWithFiles overwriteStr sessStr
        (twoProjectScenario 0 1 contentA contentB fileName1 [] [] [] [])
        []).results.conflicts = []
    ∧ lookupA (mergeWithFiles overwriteStr sessStr
        (twoProjectScenario 0 1 contentA contentB fileName1 [] [] [] [])
        []).final fileName1 = some contentB := by
  have h := merge_overwrite_no_conflict_record sessStr
    (twoProjectScenario 0 1 contentA contentB fileName1 [] [] [] []) []
    0 1 contentA contentB fileName1 [] [] [] [] []
    (by simp) (by simp) (by simp) (by simp) rfl (by decide)
  exact ⟨h.1, h.2⟩

end Xenosync
